import Mathlib

/-!
A shallow embedding of the `loom` table/field model (`src/loom/fields.py`,
`src/loom/tables.py`, `src/loom/exceptions.py`).

Python objects live in an explicit `World`: fields and tables are stored in
lists and referenced by their index (object identity).  Every mutating
operation of the source is a function `World → Except LoomError α × World`
returning both the outcome and the post state, so that mutations performed
before an exception persist, exactly as in Python.  Pure getters are plain
functions of the `World`.
-/

set_option maxRecDepth 10000

namespace Loom

/-- The errors the embedded fragment can raise.  The first four mirror the
exception classes of `src/loom/exceptions.py` (carrying the same identifying
strings their constructors receive); `keyError` is Python's builtin `KeyError`
raised by `Formatter.get_value` on a missing mapping key; `runtimeError` is the
bare `RuntimeError()` raised by `BaseTable.__enter__`/`__exit__`;
`attributeError` stands for Python's `AttributeError` (reached only outside the
modelled fragment, e.g. attribute chains on a field object). -/
inductive LoomError where
  | duplicatedField (table : String) (field : String)
  | undefinedField (table : String) (field : String)
  | unregisteredSource (table : String) (source : String)
  | noTableContextSet (field : String)
  | keyError (key : String)
  | runtimeError
  | attributeError
  deriving DecidableEq, Repr

/-- A value that a format placeholder can resolve to: `Formatter.get_field`
returns the object reached by the attribute chain, which in this code base is
either a `BaseTable` or a `BaseField` (identified by their `World` index). -/
inductive PyVal where
  | table (tid : Nat)
  | field (fid : Nat)
  deriving DecidableEq, Repr

/-- The kind-specific part of a field.  `DerivedField._sources` is assigned
only after `BaseField.__init__` has registered the field, so it is an
`Option`: `none` models the attribute not being set yet (the state a
half-constructed `DerivedField` is left in when resolution raises). -/
inductive FieldKind where
  | raw
  | derived (expression : String) (sources : Option (Finset PyVal))
  deriving DecidableEq

/-- `BaseField`'s data: `_pname`, `_lname`, `_table` (id of the owning table)
plus the subclass data. -/
structure FieldData where
  pname : String
  lname : String
  table : Nat
  kind : FieldKind
  deriving DecidableEq

/-- The kind-specific part of a table: `DerivedTable` adds `_sources` (a dict
alias → table, insertion ordered), `_from_expression` and `_groupby`.
`_groupby` is a Python `set`; it is kept as a list in iteration order (the
claims exercise at most one element, where the order is immaterial). -/
inductive TableKind where
  | raw
  | derived (sources : List (String × Nat)) (fromExpression : String) (groupby : List Nat)
  deriving DecidableEq

/-- `BaseTable`'s data: `_schema`, `_pname`, `_lname`, `_alias` and the
insertion-ordered dict `_fields` mapping a physical name to a field id. -/
structure TableData where
  schema : String
  pname : String
  lname : String
  alias_ : String
  fieldsMap : List (String × Nat)
  kind : TableKind
  deriving DecidableEq

/-- The process state: all constructed fields and tables (indexed by id) and
the module-level `CURRENT_TABLE_CONTEXT` list of table ids. -/
structure World where
  fields : List FieldData
  tables : List TableData
  context : List Nat
  deriving DecidableEq

/-- The state before any construction: no objects, empty context. -/
def initialWorld : World := ⟨[], [], []⟩

def World.getField (w : World) (fid : Nat) : Option FieldData := w.fields[fid]?

def World.getTable (w : World) (tid : Nat) : Option TableData := w.tables[tid]?

/-- `table._alias` of the table with id `tid` (empty on a dangling id, which no
constructed world produces). -/
def tableAlias (w : World) (tid : Nat) : String :=
  ((w.getTable tid).map TableData.alias_).getD ""

/-- `table._pname` (empty on a dangling id). -/
def tablePname (w : World) (tid : Nat) : String :=
  ((w.getTable tid).map TableData.pname).getD ""

/-- `field._pname` (empty on a dangling id). -/
def fieldPname (w : World) (fid : Nat) : String :=
  ((w.getField fid).map FieldData.pname).getD ""

/-- `BaseTable.__str__`: `f"\x7bself._schema\x7d.\x7bself._pname\x7d as \x7bself._alias\x7d"`. -/
def tableStr (w : World) (tid : Nat) : String :=
  match w.getTable tid with
  | some t => t.schema ++ "." ++ t.pname ++ " as " ++ t.alias_
  | none => ""

/-- `BaseField.__str__`: the owning table is always set (and `bool(table)` is
`True`), so this renders `f"\x7bself._table._alias\x7d.\x7bself._pname\x7d"`. -/
def fieldStr (w : World) (fid : Nat) : String :=
  match w.getField fid with
  | some f => tableAlias w f.table ++ "." ++ f.pname
  | none => ""

/-- `str(obj)` of a resolved placeholder value (what `str.format` substitutes,
since neither class overrides `__format__`). -/
def pyStr (w : World) : PyVal → String
  | .table tid => tableStr w tid
  | .field fid => fieldStr w fid

/-! ### The string formatter

`string.Formatter` as exercised by this code base: placeholders are
`\x7balias.field\x7d` (or `\x7balias\x7d` in from-templates), with no
conversion (`!r`), no format spec (`:...`) and no brace escaping — none of
which appears in any expression the repository builds. -/

def lbrace : Char := '\x7b'

def rbrace : Char := '\x7d'

/-- The scanner behind `Formatter.parse`: outside a placeholder (`acc = none`)
literal characters are skipped and `\x7b` opens a name; inside (`acc = some`,
collected in reverse) `\x7d` closes the name.  Structured as a single
left-to-right pass so that it is structurally recursive on the character
list. -/
def parseAux : Option (List Char) → List Char → List String
  | none, [] => []
  | some acc, [] => [String.mk acc.reverse]
  | none, c :: rest =>
    if c = lbrace then parseAux (some []) rest else parseAux none rest
  | some acc, c :: rest =>
    if c = rbrace then String.mk acc.reverse :: parseAux none rest
    else parseAux (some (c :: acc)) rest

/-- The field names yielded by `Formatter.parse`, in textual order
(`get_fields_from_expr` skips falsy i.e. empty names at its use site). -/
def parsePlaceholders (l : List Char) : List String :=
  parseAux none l

/-- Split a character list at every occurrence of `sep` (the behavior of
Python's `str.split` for a one-character separator). -/
def splitChar (sep : Char) (acc : List Char) : List Char → List String
  | [] => [String.mk acc.reverse]
  | c :: rest =>
    if c = sep then String.mk acc.reverse :: splitChar sep [] rest
    else splitChar sep (c :: acc) rest

/-- `_string.formatter_field_name_split`: the leading name before the first
`.` and the chain of attribute names after it (no `[...]` indexing occurs in
this code base). -/
def splitFieldName (s : String) : String × List String :=
  match splitChar '.' [] s.data with
  | [] => ("", [])
  | first :: rest => (first, rest)

/-- `Formatter.get_value(key, args, kwargs)` with string key: `kwargs[key]`,
raising `KeyError` when absent — the context here is always an alias → table
dict. -/
def getValue (ctx : List (String × Nat)) (key : String) : Except LoomError PyVal :=
  match ctx.lookup key with
  | some tid => .ok (.table tid)
  | none => .error (.keyError key)

/-- One attribute access `getattr(obj, name)` of the chain: on a table this is
`BaseTable.__getattr__` → `__getitem__` (raising `UndefinedFieldException`
when the name is not a field); a field object has no `__getattr__`, so Python
would raise `AttributeError` (never reached by this code base's expressions). -/
def getAttrPy (w : World) (v : PyVal) (name : String) : Except LoomError PyVal :=
  match v with
  | .table tid =>
    match w.getTable tid with
    | some t =>
      match t.fieldsMap.lookup name with
      | some fid => .ok (.field fid)
      | none => .error (.undefinedField t.pname name)
    | none => .error .attributeError
  | .field _ => .error .attributeError

/-- `Formatter.get_field(field_name, args, kwargs)`: look the first part up in
the mapping, then follow the attribute chain. -/
def getFieldPy (w : World) (ctx : List (String × Nat)) (fieldName : String) :
    Except LoomError PyVal :=
  let (first, rest) := splitFieldName fieldName
  match getValue ctx first with
  | .error e => .error e
  | .ok v => rest.foldlM (getAttrPy w) v

/-- The scanner behind `str.format`, one left-to-right structural pass with
the same placeholder state as `parseAux`: literal text is copied and every
closed placeholder is resolved and substituted by `str` of its object. -/
def pyFormatAux (w : World) (ctx : List (String × Nat)) :
    Option (List Char) → List Char → Except LoomError String
  | none, [] => .ok ""
  | some acc, [] =>
    match getFieldPy w ctx (String.mk acc.reverse) with
    | .error e => .error e
    | .ok v => .ok (pyStr w v)
  | none, c :: rest =>
    if c = lbrace then pyFormatAux w ctx (some []) rest
    else
      match pyFormatAux w ctx none rest with
      | .error e => .error e
      | .ok tail => .ok (String.singleton c ++ tail)
  | some acc, c :: rest =>
    if c = rbrace then
      match getFieldPy w ctx (String.mk acc.reverse) with
      | .error e => .error e
      | .ok v =>
        match pyFormatAux w ctx none rest with
        | .error e => .error e
        | .ok tail => .ok (pyStr w v ++ tail)
    else pyFormatAux w ctx (some (c :: acc)) rest

/-- `template.format(**ctx)`: copy literal text, substitute each placeholder
by `str` of the object it resolves to. -/
def pyFormat (w : World) (ctx : List (String × Nat)) (template : List Char) :
    Except LoomError String :=
  pyFormatAux w ctx none template

/-- `get_fields_from_expr(expression, context)` (`src/loom/fields.py`): parse
the expression, resolve every non-empty placeholder name, collect the results
in a set. -/
def get_fields_from_expr (w : World) (expression : String)
    (context : List (String × Nat)) : Except LoomError (Finset PyVal) :=
  (parsePlaceholders expression.data).foldlM
    (fun acc name =>
      if name = "" then .ok acc
      else
        match getFieldPy w context name with
        | .error e => .error e
        | .ok v => .ok (insert v acc))
    (∅ : Finset PyVal)

/-! ### Table construction (`src/loom/tables.py`) -/

/-- Python-dict insertion: overwriting an existing key keeps its position,
a new key is appended. -/
def dictInsert (d : List (String × Nat)) (k : String) (v : Nat) : List (String × Nat) :=
  if (d.lookup k).isSome then
    d.map (fun p => if p.1 = k then (k, v) else p)
  else
    d ++ [(k, v)]

/-- `DerivedTable._process_sources`: the dict comprehension
`\x7bt._alias: t for t in sources\x7d`. -/
def process_sources (w : World) (sources : List Nat) : List (String × Nat) :=
  sources.foldl (fun d tid => dictInsert d (tableAlias w tid) tid) []

/-- `BaseTable.__init__` (the `lname`/`alias` defaulting) as shared by both
table classes. -/
def baseTableInit (schema pname : String) (lname alias_ : Option String)
    (kind : TableKind) : TableData :=
  ⟨schema, pname, lname.getD pname, alias_.getD pname, [], kind⟩

/-- `RawTable(schema, pname, lname, alias)`: allocate the table, return its id. -/
def createRawTable (w : World) (schema pname : String) (lname alias_ : Option String) :
    Nat × World :=
  (w.tables.length,
   { w with tables := w.tables ++ [baseTableInit schema pname lname alias_ .raw] })

/-- `DerivedTable(schema, pname, sources, from_expression, lname, alias)`:
`super().__init__` then `_groupby = set()`, `_sources = _process_sources(sources)`,
`_from_expression = from_expression`.  Never raises. -/
def createDerivedTable (w : World) (schema pname : String) (sources : List Nat)
    (from_expression : String) (lname alias_ : Option String) : Nat × World :=
  (w.tables.length,
   { w with tables := w.tables ++
      [baseTableInit schema pname lname alias_
        (.derived (process_sources w sources) from_expression [])] })

/-- `BaseTable.__enter__`: raise a bare `RuntimeError` when the context is
non-empty, otherwise push the table. -/
def tableEnter (w : World) (tid : Nat) : Except LoomError Unit × World :=
  if w.context.length > 0 then (.error .runtimeError, w)
  else (.ok (), { w with context := w.context ++ [tid] })

/-- `BaseTable.__exit__`: raise a bare `RuntimeError` when the table is not in
the context, otherwise remove its first occurrence (`list.remove`). -/
def tableExit (w : World) (tid : Nat) : Except LoomError Unit × World :=
  if tid ∈ w.context then (.ok (), { w with context := w.context.erase tid })
  else (.error .runtimeError, w)

/-- `DerivedTable.groupby(fields)`: `self._groupby = set(fields)` (kept as a
list in iteration order).  A no-op on a raw table id (the method only exists
on `DerivedTable`). -/
def setGroupby (w : World) (tid : Nat) (fids : List Nat) : World :=
  match w.getTable tid with
  | some t =>
    match t.kind with
    | .derived srcs fe _ =>
      { w with tables := w.tables.set tid { t with kind := .derived srcs fe fids } }
    | .raw => w
  | none => w

/-- `DerivedTable.get_source(key)`: raise `UnregisteredSourceException` when
the alias is not a registered source, otherwise return the table. -/
def get_source (w : World) (tid : Nat) (key : String) : Except LoomError Nat :=
  match w.getTable tid with
  | some t =>
    match t.kind with
    | .derived srcs _ _ =>
      match srcs.lookup key with
      | some s => .ok s
      | none => .error (.unregisteredSource t.pname key)
    | .raw => .error .attributeError
  | none => .error .attributeError

/-- `BaseTable.__getitem__(key)`: the field id, or `UndefinedFieldException`. -/
def tableGetItem (w : World) (tid : Nat) (key : String) : Except LoomError Nat :=
  match w.getTable tid with
  | some t =>
    match t.fieldsMap.lookup key with
    | some fid => .ok fid
    | none => .error (.undefinedField t.pname key)
  | none => .error .attributeError

/-- `table._sources` of the owning table, as read by `DerivedField.__init__`
and `DerivedField.get_expression`: a direct attribute on a `DerivedTable`; on
a `RawTable` the missing attribute falls through `__getattr__` →
`__getitem__("_sources")`, raising `UndefinedFieldException`. -/
def tableSources (w : World) (tid : Nat) : Except LoomError (List (String × Nat)) :=
  match w.getTable tid with
  | some t =>
    match t.kind with
    | .derived srcs _ _ => .ok srcs
    | .raw =>
      match t.fieldsMap.lookup "_sources" with
      | some _ => .error .attributeError
      | none => .error (.undefinedField t.pname "_sources")
  | none => .error .attributeError

/-! ### Field construction (`src/loom/fields.py`) -/

/-- `BaseTable.add_field(field)`: raise `DuplicatedFieldException` on a
physical-name collision, otherwise append to the `_fields` dict. -/
def addField (w : World) (tid : Nat) (fid : Nat) (fname : String) :
    Except LoomError Unit × World :=
  match w.getTable tid with
  | some t =>
    if (t.fieldsMap.lookup fname).isSome then
      (.error (.duplicatedField t.pname fname), w)
    else
      (.ok (),
       { w with tables := w.tables.set tid { t with fieldsMap := t.fieldsMap ++ [(fname, fid)] } })
  | none => (.error .attributeError, w)

/-- `BaseField.set_table`: raise `NoTableContextSetException` when the context
is empty; otherwise register with `CURRENT_TABLE_CONTEXT[0]` and return it. -/
def setTable (w : World) (fid : Nat) (fname : String) : Except LoomError Nat × World :=
  match w.context with
  | [] => (.error (.noTableContextSet fname), w)
  | tid :: _ =>
    match addField w tid fid fname with
    | (.ok _, w') => (.ok tid, w')
    | (.error e, w') => (.error e, w')

/-- `RawField(pname, lname)`: `BaseField.__init__` — set names, register with
the context table.  On failure the object is never reachable, so the field
store is unchanged. -/
def createRawField (w : World) (pname : String) (lname : Option String) :
    Except LoomError Nat × World :=
  let fid := w.fields.length
  match setTable w fid pname with
  | (.error e, w') => (.error e, w')
  | (.ok tid, w') =>
    (.ok fid, { w' with fields := w'.fields ++ [⟨pname, lname.getD pname, tid, .raw⟩] })

/-- `self._sources = get_fields_from_expr(expression, self._table._sources)`,
the last line of `DerivedField.__init__`. -/
def resolveSources (w : World) (tid : Nat) (expression : String) :
    Except LoomError (Finset PyVal) :=
  match tableSources w tid with
  | .error e => .error e
  | .ok ctx => get_fields_from_expr w expression ctx

/-- `DerivedField(pname, expression, lname)`: `super().__init__` registers the
field (raising `NoTableContextSet`/`DuplicateField` as for a raw field), then
`_expression` is stored and the sources are resolved.  When resolution raises,
the field stays registered with `_sources` unset — the table mutation
persists. -/
def createDerivedField (w : World) (pname expression : String) (lname : Option String) :
    Except LoomError Nat × World :=
  let fid := w.fields.length
  match setTable w fid pname with
  | (.error e, w') => (.error e, w')
  | (.ok tid, w') =>
    let w1 : World :=
      { w' with fields := w'.fields ++ [⟨pname, lname.getD pname, tid, .derived expression none⟩] }
    match resolveSources w1 tid expression with
    | .error e => (.error e, w1)
    | .ok s =>
      (.ok fid,
       { w1 with fields := w1.fields.set fid ⟨pname, lname.getD pname, tid, .derived expression (some s)⟩ })

/-! ### Field getters -/

/-- `get_expression()`: `RawField` returns its physical name; `DerivedField`
returns `f"\x7bexpression\x7d as \x7bself._pname\x7d"` with the expression
formatted over `self._table._sources`. -/
def fieldGetExpression (w : World) (fid : Nat) : Except LoomError String :=
  match w.getField fid with
  | some f =>
    match f.kind with
    | .raw => .ok f.pname
    | .derived expr _ =>
      match tableSources w f.table with
      | .error e => .error e
      | .ok ctx =>
        match pyFormat w ctx expr.data with
        | .error e => .error e
        | .ok s => .ok (s ++ " as " ++ f.pname)
  | none => .error .attributeError

/-- `get_sources()`: `RawField` returns `set([self])`; `DerivedField` returns
`self._sources` (an `AttributeError` on a half-constructed field whose
resolution raised). -/
def fieldGetSources (w : World) (fid : Nat) : Except LoomError (Finset PyVal) :=
  match w.getField fid with
  | some f =>
    match f.kind with
    | .raw => .ok {PyVal.field fid}
    | .derived _ (some s) => .ok s
    | .derived _ none => .error .attributeError
  | none => .error .attributeError

/-- The recursion of `get_lineage()`, fuelled to make it total: `RawField`
returns `set([self])`, `DerivedField` the union of `f.get_lineage()` over its
`_sources`.  The non-field / unresolved / out-of-fuel fallbacks return `∅`;
none is reachable on a well-formed world (sources are earlier-constructed
fields, so ids strictly decrease). -/
def getLineageAux (w : World) : Nat → PyVal → Finset Nat
  | _, .table _ => ∅
  | 0, .field _ => ∅
  | fuel + 1, .field fid =>
    match w.getField fid with
    | some f =>
      match f.kind with
      | .raw => {fid}
      | .derived _ (some s) => s.biUnion (fun v => getLineageAux w fuel v)
      | .derived _ none => ∅
    | none => ∅

/-- `get_lineage()` of the field with id `fid`. -/
def get_lineage (w : World) (fid : Nat) : Finset Nat :=
  getLineageAux w (fid + 1) (.field fid)

/-! ### The query compiler (`DerivedTable`) -/

/-- Python's `str.replace` for the one-character pattern `get_select` uses:
substitute `new` for every occurrence of `old`. -/
def replaceChar (old : Char) (new : List Char) : List Char → List Char
  | [] => []
  | c :: rest =>
    if c = old then new ++ replaceChar old new rest
    else c :: replaceChar old new rest

/-- `DerivedTable.get_select(indent)`: join the field expressions with `",\n"`
in registration order, then indent every line break. -/
def getSelect (w : World) (tid : Nat) (indent : Nat) : Except LoomError String :=
  match w.getTable tid with
  | some t =>
    match t.fieldsMap.mapM (fun p => fieldGetExpression w p.2) with
    | .error e => .error e
    | .ok exprs =>
      .ok (String.mk (replaceChar '\n' ('\n' :: List.replicate indent ' ')
        (String.intercalate ",\n" exprs).data))
  | none => .error .attributeError

/-- `DerivedTable.get_from()`: `self._from_expression.format(**self._sources)`. -/
def getFrom (w : World) (tid : Nat) : Except LoomError String :=
  match w.getTable tid with
  | some t =>
    match t.kind with
    | .derived srcs fromExpr _ => pyFormat w srcs fromExpr.data
    | .raw => .error .attributeError
  | none => .error .attributeError

/-- `DerivedTable.get_groupby()`: empty string for an empty grouping set,
otherwise `"group by \n "` followed by the comma-newline-joined physical
names of the grouping fields. -/
def getGroupby (w : World) (tid : Nat) : String :=
  match w.getTable tid with
  | some t =>
    match t.kind with
    | .derived _ _ groupby =>
      if groupby.length = 0 then ""
      else "group by \n " ++ String.intercalate ",\n" (groupby.map (fieldPname w))
    | .raw => ""
  | none => ""

/-- `DerivedTable.get_query()`: the `cleandoc`-ed five-part template
`"create table \x7bnew_table\x7d as\nselect\n    \x7bselect_expr\x7d\nfrom\n    \x7bfrom_expr\x7d\n\x7bwhere_expr\x7d\n\x7bgroupby_expr\x7d;"`
filled with the table's physical name, `get_select(indent=4)`, `get_from()`,
the always-empty where clause, and `get_groupby()`. -/
def get_query (w : World) (tid : Nat) : Except LoomError String :=
  match getSelect w tid 4 with
  | .error e => .error e
  | .ok selectExpr =>
    match getFrom w tid with
    | .error e => .error e
    | .ok fromExpr =>
      .ok ("create table " ++ tablePname w tid ++ " as\nselect\n    " ++ selectExpr ++
           "\nfrom\n    " ++ fromExpr ++ "\n" ++ "" ++ "\n" ++ getGroupby w tid ++ ";")

/-! ### Concrete scenarios from the spec's testable properties -/

/-- The compilation scenario: source table `a` (schema `schema`, fields `id`
and `vendor_id`), derived table `b` sourcing it with from-template
`"\x7ba\x7d"`, one derived field `DerivedField("id", "\x7ba.id\x7d")`, grouped
by the `vendor_id` field.  Table `a` has id 0 and `b` id 1; fields `id`,
`vendor_id`, derived `id` have ids 0, 1, 2. -/
def scenarioC1 : World :=
  let w0 := (createRawTable initialWorld "schema" "a" none none).2
  let w1 := (tableEnter w0 0).2
  let w2 := (createRawField w1 "id" none).2
  let w3 := (createRawField w2 "vendor_id" none).2
  let w4 := (tableExit w3 0).2
  let w5 := (createDerivedTable w4 "schema" "b" [0] "\x7ba\x7d" none none).2
  let w6 := (tableEnter w5 1).2
  let w7 := (createDerivedField w6 "id" "\x7ba.id\x7d" none).2
  let w8 := (tableExit w7 1).2
  setGroupby w8 1 [1]

/-- The resolution scenario: source table `t1` (alias `t1`) with field
`income` (field id 0), derived table `t2` sourcing it, and a derived field
`income_abs` (field id 1) with expression `"abs(\x7bt1.income\x7d)"`; the
`t2` build scope is still open. -/
def scenarioC2 : World :=
  let w0 := (createRawTable initialWorld "s" "t1" none none).2
  let w1 := (tableEnter w0 0).2
  let w2 := (createRawField w1 "income" none).2
  let w3 := (tableExit w2 0).2
  let w4 := (createDerivedTable w3 "s" "t2" [0] "\x7bt1\x7d" none none).2
  let w5 := (tableEnter w4 1).2
  (createDerivedField w5 "income_abs" "abs(\x7bt1.income\x7d)" none).2

/-! ### Auxiliary definitions used by the claim theorems -/

/-- Whether a direct-source entry is a field constructed before `fid`. -/
def valBounded (fid : Nat) : PyVal → Bool
  | .field f => decide (f < fid)
  | .table _ => false

/-- A derived field's resolved sources are fields constructed strictly
earlier (smaller ids).  This holds of every world the builder constructs,
because a derived field can only reference fields of tables that were fully
built before its own table was declared. -/
def sourcesBounded (fid : Nat) : FieldKind → Bool
  | .derived _ (some s) => decide (∀ v ∈ s, valBounded fid v = true)
  | _ => true

/-- The acyclicity invariant of a world: see `sourcesBounded`. -/
def wfWorld (w : World) : Bool :=
  (List.range w.fields.length).all (fun i =>
    match w.fields[i]? with
    | some fd => sourcesBounded i fd.kind
    | none => true)

/-- `get_lineage` of one direct-source entry (always a field in this code
base). -/
def lineageOfVal (w : World) : PyVal → Finset Nat
  | .field m => get_lineage w m
  | .table _ => ∅

/-- The state-changing operations of the core (the pure getters take the
world as an argument and return none). -/
inductive Op where
  | mkRawTable (schema pname : String) (lname alias_ : Option String)
  | mkDerivedTable (schema pname : String) (sources : List Nat) (fromExpr : String)
      (lname alias_ : Option String)
  | enter (tid : Nat)
  | close (tid : Nat)
  | mkRawField (pname : String) (lname : Option String)
  | mkDerivedField (pname expression : String) (lname : Option String)
  | groupby (tid : Nat) (fids : List Nat)

/-- The world each operation leaves behind (on success or failure alike). -/
def runOp (w : World) : Op → World
  | .mkRawTable s p l a => (createRawTable w s p l a).2
  | .mkDerivedTable s p srcs fe l a => (createDerivedTable w s p srcs fe l a).2
  | .enter tid => (tableEnter w tid).2
  | .close tid => (tableExit w tid).2
  | .mkRawField p l => (createRawField w p l).2
  | .mkDerivedField p e l => (createDerivedField w p e l).2
  | .groupby tid fids => setGroupby w tid fids

/-- Whether a result is the typed `UnregisteredSourceException` of
`src/loom/exceptions.py`. -/
def isUnregisteredSource {α : Type} : Except LoomError α → Bool
  | .error (.unregisteredSource _ _) => true
  | _ => false

/-- Two raw tables (ids 0 and 1) that share the alias `a`. -/
def scenarioC8 : World :=
  let w0 := (createRawTable initialWorld "s" "t1" none (some "a")).2
  (createRawTable w0 "s" "t2" none (some "a")).2

/-- The world `DerivedField.__init__` has built right after `super().__init__`
and `self._expression = expression`, before source resolution. -/
def registeredWorld (w : World) (tid : Nat) (t : TableData) (pname expr : String)
    (lname : Option String) : World :=
  ⟨w.fields ++ [⟨pname, lname.getD pname, tid, .derived expr none⟩],
   w.tables.set tid { t with fieldsMap := t.fieldsMap ++ [(pname, w.fields.length)] },
   w.context⟩

/-! ### C1: the compiled query text -/

/-- C1 (counterexample): on the compilation scenario, `get_query()` does not
return the single-line uppercase text the claim states — the code's
`cleandoc` template emits lowercase keywords over several lines. -/
theorem C1_counterexample :
    get_query scenarioC1 1 =
      .ok "create table b as\nselect\n    a.id as id\nfrom\n    schema.a as a\n\ngroup by \n vendor_id;" ∧
    "create table b as\nselect\n    a.id as id\nfrom\n    schema.a as a\n\ngroup by \n vendor_id;" ≠
      "CREATE TABLE b AS SELECT a.id AS id FROM schema.a AS a GROUP BY vendor_id;" := by
  exact ⟨rfl, by decide⟩

/-- C1 (amended): the compiled query for the scenario is exactly the
lowercase multi-line text
`"create table b as\nselect\n    a.id as id\nfrom\n    schema.a as a\n\ngroup by \n vendor_id;"`,
with the fixed clause order create/select/from/where-placeholder/groupby and
the where line always empty; with the empty grouping set the group-by text is
omitted (its blank line remains). -/
theorem C1_get_query :
    get_query scenarioC1 1 =
      .ok "create table b as\nselect\n    a.id as id\nfrom\n    schema.a as a\n\ngroup by \n vendor_id;" ∧
    get_query (setGroupby scenarioC1 1 []) 1 =
      .ok "create table b as\nselect\n    a.id as id\nfrom\n    schema.a as a\n\n;" := by
  exact ⟨rfl, rfl⟩

/-! ### C2: the compiled field expression and its sources -/

/-- C2 (counterexample): `get_expression()` of the `income_abs` field joins
with a lowercase `" as "`, not the uppercase `AS` the claim states. -/
theorem C2_counterexample :
    fieldGetExpression scenarioC2 1 = .ok "abs(t1.income) as income_abs" ∧
    "abs(t1.income) as income_abs" ≠ "abs(t1.income) AS income_abs" := by
  exact ⟨rfl, by decide⟩

/-- C2 (amended): on the resolution scenario, `get_expression()` returns
exactly `"abs(t1.income) as income_abs"` (the placeholder replaced by the
fully-qualified `alias.physical_name`, followed by lowercase `as` and the
field's own physical name), and `get_sources()` is exactly the singleton
containing `t1`'s `income` field (field id 0, named `income`, owned by table
id 0 whose alias is `t1`). -/
theorem C2_get_expression :
    fieldGetExpression scenarioC2 1 = .ok "abs(t1.income) as income_abs" ∧
    fieldGetSources scenarioC2 1 = .ok {PyVal.field 0} ∧
    fieldPname scenarioC2 0 = "income" ∧
    (scenarioC2.getField 0).map FieldData.table = some 0 ∧
    tableAlias scenarioC2 0 = "t1" := by
  refine ⟨rfl, ?_, rfl, rfl, rfl⟩
  rfl

/-! ### C3: lineage -/

theorem wfWorld_bounded {w : World} (hwf : wfWorld w = true) {fid : Nat} {fd : FieldData}
    (hg : w.getField fid = some fd) : sourcesBounded fid fd.kind = true := by
  rw [World.getField] at hg
  have hlt : fid < w.fields.length := by
    by_contra hge
    have : w.fields[fid]? = none := List.getElem?_eq_none (by omega)
    rw [this] at hg
    exact Option.noConfusion hg
  have := (List.all_eq_true.mp hwf) fid (List.mem_range.mpr hlt)
  simpa [hg] using this

theorem sourcesBounded_mem {fid : Nat} {expr : String} {s : Finset PyVal}
    (hb : sourcesBounded fid (.derived expr (some s)) = true) {v : PyVal} (hv : v ∈ s) :
    ∃ m, v = PyVal.field m ∧ m < fid := by
  have hall := of_decide_eq_true hb
  have := hall v hv
  cases v with
  | table tid => simp [valBounded] at this
  | field m => exact ⟨m, rfl, by simpa [valBounded] using this⟩

/-- On a well-formed world the fuel is irrelevant as soon as it exceeds the
field id, so `getLineageAux` computes the honest transitive closure. -/
theorem getLineageAux_fuel (w : World) (hwf : wfWorld w = true) :
    ∀ fid fuel, fid < fuel → getLineageAux w fuel (.field fid) = get_lineage w fid := by
  intro fid
  induction fid using Nat.strong_induction_on with
  | _ fid ih =>
    intro fuel hf
    obtain ⟨f, rfl⟩ : ∃ f, fuel = f + 1 := ⟨fuel - 1, by omega⟩
    rw [get_lineage]
    simp only [getLineageAux]
    cases hg : w.getField fid with
    | none => rfl
    | some fd =>
      obtain ⟨pn, ln, tb, k⟩ := fd
      cases k with
      | raw => rfl
      | derived expr os =>
        cases os with
        | none => rfl
        | some s =>
          apply Finset.biUnion_congr rfl
          intro v hv
          have hb : sourcesBounded fid (.derived expr (some s)) = true :=
            wfWorld_bounded hwf hg
          obtain ⟨m, rfl, hm⟩ := sourcesBounded_mem hb hv
          rw [ih m hm f (by omega), ih m hm fid hm]

/-- C3: on any well-formed world (derived fields reference only
earlier-constructed fields, which the builder guarantees structurally),
`get_lineage` of a source field is the singleton of the field itself, and
`get_lineage` of a derived field is the union of `get_lineage` over its
direct-source set.  All getters of the embedding are pure functions of the
world, so repeated calls agree and no field or table state changes. -/
theorem C3_lineage (w : World) (hwf : wfWorld w = true) (fid : Nat)
    (pn ln : String) (tb : Nat) :
    (w.getField fid = some ⟨pn, ln, tb, .raw⟩ → get_lineage w fid = {fid}) ∧
    (∀ expr s, w.getField fid = some ⟨pn, ln, tb, .derived expr (some s)⟩ →
      get_lineage w fid = s.biUnion (lineageOfVal w)) := by
  constructor
  · intro hg
    rw [get_lineage]
    simp only [getLineageAux]
    rw [hg]
  · intro expr s hg
    rw [get_lineage]
    simp only [getLineageAux]
    rw [hg]
    show s.biUnion (fun v => getLineageAux w fid v) = s.biUnion (lineageOfVal w)
    apply Finset.biUnion_congr rfl
    intro v hv
    have hb : sourcesBounded fid (.derived expr (some s)) = true :=
      wfWorld_bounded hwf hg
    obtain ⟨m, rfl, hm⟩ := sourcesBounded_mem hb hv
    rw [getLineageAux_fuel w hwf m fid hm, lineageOfVal]

/-- C3 witness: the resolution scenario is well formed; its source field
`income` (id 0) has lineage `{0}` and its derived field `income_abs` (id 1)
has lineage equal to the union over its direct sources. -/
theorem C3_lineage_witness :
    get_lineage scenarioC2 0 = {0} ∧
    get_lineage scenarioC2 1 = Finset.biUnion {PyVal.field 0} (lineageOfVal scenarioC2) :=
  ⟨(C3_lineage scenarioC2 (by rfl) 0 "income" "income" 0).1 (by rfl),
   (C3_lineage scenarioC2 (by rfl) 1 "income_abs" "income_abs" 1).2
      "abs(\x7bt1.income\x7d)" {PyVal.field 0} (by rfl)⟩

/-! ### C4: duplicate field names -/

/-- C4: with a build scope open on table `tid` that already has a field named
`pname` (looked up as `fid0`), creating a second field with that physical name
— raw or derived — fails with `DuplicatedFieldException` carrying the table
and field names, the world is returned unchanged, and the first field is still
the one retrieved by `__getitem__`. -/
theorem C4_duplicate_field (w : World) (tid : Nat) (rest : List Nat) (t : TableData)
    (pname expr : String) (fid0 : Nat) (lname lname2 : Option String)
    (hctx : w.context = tid :: rest)
    (ht : w.getTable tid = some t)
    (hdup : t.fieldsMap.lookup pname = some fid0) :
    createRawField w pname lname = (.error (.duplicatedField t.pname pname), w) ∧
    createDerivedField w pname expr lname2 = (.error (.duplicatedField t.pname pname), w) ∧
    tableGetItem w tid pname = .ok fid0 := by
  have hadd : addField w tid w.fields.length pname
      = (.error (.duplicatedField t.pname pname), w) := by
    unfold addField
    rw [ht]
    simp [hdup]
  have hset : setTable w w.fields.length pname
      = (.error (.duplicatedField t.pname pname), w) := by
    unfold setTable
    rw [hctx]
    dsimp only
    rw [hadd]
  refine ⟨?_, ?_, ?_⟩
  · unfold createRawField
    dsimp only
    rw [hset]
  · unfold createDerivedField
    dsimp only
    rw [hset]
  · unfold tableGetItem
    rw [ht]
    dsimp only
    rw [hdup]

/-- C4 witness: on the resolution scenario (scope open on table `t2`, which
already holds `income_abs` as field id 1), a second `income_abs` fails and
field id 1 is still returned by lookup. -/
theorem C4_duplicate_field_witness :
    createRawField scenarioC2 "income_abs" none
      = (.error (.duplicatedField "t2" "income_abs"), scenarioC2) ∧
    createDerivedField scenarioC2 "income_abs" "1" none
      = (.error (.duplicatedField "t2" "income_abs"), scenarioC2) ∧
    tableGetItem scenarioC2 1 "income_abs" = .ok 1 :=
  C4_duplicate_field scenarioC2 1 []
    ⟨"s", "t2", "t2", "t2", [("income_abs", 1)], .derived [("t1", 0)] "\x7bt1\x7d" []⟩
    "income_abs" "1" 1 none none (by rfl) (by rfl) (by rfl)

/-! ### C6 and C7: the builder context -/

/-- `BaseTable.add_field` never touches `CURRENT_TABLE_CONTEXT`. -/
theorem addField_context (w : World) (tid fid : Nat) (fname : String) :
    (addField w tid fid fname).2.context = w.context := by
  unfold addField
  cases w.getTable tid with
  | none => rfl
  | some t =>
    dsimp only
    split <;> rfl

/-- `BaseField.set_table` never touches `CURRENT_TABLE_CONTEXT`. -/
theorem setTable_context (w : World) (fid : Nat) (fname : String) :
    (setTable w fid fname).2.context = w.context := by
  unfold setTable
  cases hc : w.context with
  | nil => exact hc
  | cons tid rest =>
    have h := addField_context w tid fid fname
    cases hres : addField w tid fid fname with
    | mk r w' => cases r <;> simp_all

/-- `RawField` construction never touches `CURRENT_TABLE_CONTEXT`. -/
theorem createRawField_context (w : World) (p : String) (l : Option String) :
    (createRawField w p l).2.context = w.context := by
  unfold createRawField
  have h := setTable_context w w.fields.length p
  cases hres : setTable w w.fields.length p with
  | mk r w' => cases r <;> simp_all

/-- `DerivedField` construction never touches `CURRENT_TABLE_CONTEXT`. -/
theorem createDerivedField_context (w : World) (p e : String) (l : Option String) :
    (createDerivedField w p e l).2.context = w.context := by
  unfold createDerivedField
  dsimp only
  have h := setTable_context w w.fields.length p
  cases hres : setTable w w.fields.length p with
  | mk r w' =>
    rw [hres] at h
    cases r with
    | error err => simpa using h
    | ok tid =>
      dsimp only
      cases resolveSources { w' with fields := w'.fields ++
          [⟨p, l.getD p, tid, .derived e none⟩] } tid e <;> simpa using h

/-- `DerivedTable.groupby` never touches `CURRENT_TABLE_CONTEXT`. -/
theorem setGroupby_context (w : World) (tid : Nat) (fids : List Nat) :
    (setGroupby w tid fids).context = w.context := by
  unfold setGroupby
  cases w.getTable tid with
  | none => rfl
  | some t =>
    dsimp only
    cases t.kind <;> rfl

/-- C6: the builder context never holds more than one table.  It is empty in
the initial state; every core operation preserves depth ≤ 1; `__enter__` while
the context is occupied fails with the (untyped) `RuntimeError` — the spec's
`ScopeReentry` — leaving the context unchanged; and a successful `__exit__`
from a depth ≤ 1 context leaves it empty. -/
theorem C6_context_invariant (w : World) (op : Op) (tid : Nat)
    (hw : w.context.length ≤ 1) :
    initialWorld.context = [] ∧
    (runOp w op).context.length ≤ 1 ∧
    (w.context ≠ [] → tableEnter w tid = (.error .runtimeError, w)) ∧
    ((tableExit w tid).1 = .ok () → (tableExit w tid).2.context = []) := by
  refine ⟨rfl, ?_, ?_, ?_⟩
  · cases op with
    | mkRawTable s p l a => simpa [runOp, createRawTable] using hw
    | mkDerivedTable s p srcs fe l a => simpa [runOp, createDerivedTable] using hw
    | enter t =>
      simp only [runOp, tableEnter]
      split
      · exact hw
      · next hlen =>
        simp only [List.length_append, List.length_cons, List.length_nil]
        omega
    | close t =>
      simp only [runOp, tableExit]
      split
      · next hmem =>
        have := List.length_erase_of_mem hmem
        simp only [this]
        omega
      · exact hw
    | mkRawField p l =>
      simp only [runOp]
      rw [createRawField_context]
      exact hw
    | mkDerivedField p e l =>
      simp only [runOp]
      rw [createDerivedField_context]
      exact hw
    | groupby t fids =>
      simp only [runOp]
      rw [setGroupby_context]
      exact hw
  · intro hne
    unfold tableEnter
    rw [if_pos (by simpa [List.length_pos] using hne)]
  · unfold tableExit
    split
    · next hmem =>
      intro _
      cases hc : w.context with
      | nil => rw [hc] at hmem; exact absurd hmem (List.not_mem_nil tid)
      | cons a l =>
        rw [hc] at hw hmem
        have hl : l = [] := by
          simp only [List.length_cons] at hw
          exact List.eq_nil_of_length_eq_zero (by omega)
        subst hl
        have : tid = a := by simpa using hmem
        subst this
        simp [hc]
    · intro h
      exact absurd h (by simp)

/-- C6 witness: at a concrete singleton context (the resolution scenario has
`t2`'s scope open), field creation keeps depth ≤ 1, re-entry fails leaving the
context unchanged, and exit empties it. -/
theorem C6_context_invariant_witness :
    initialWorld.context = [] ∧
    (runOp scenarioC2 (.mkRawField "extra" none)).context.length ≤ 1 ∧
    (scenarioC2.context ≠ [] → tableEnter scenarioC2 0 = (.error .runtimeError, scenarioC2)) ∧
    ((tableExit scenarioC2 0).1 = .ok () → (tableExit scenarioC2 0).2.context = []) :=
  C6_context_invariant scenarioC2 (.mkRawField "extra" none) 0 (by decide)

/-- C7: with no build scope open, constructing a field — raw or derived —
fails with `NoTableContextSetException` carrying the field's physical name,
and the world (in particular every table's field mapping) is unchanged. -/
theorem C7_no_scope (w : World) (pname expr : String) (lname lname2 : Option String)
    (hctx : w.context = []) :
    createRawField w pname lname = (.error (.noTableContextSet pname), w) ∧
    createDerivedField w pname expr lname2 = (.error (.noTableContextSet pname), w) := by
  have hset : setTable w w.fields.length pname = (.error (.noTableContextSet pname), w) := by
    unfold setTable
    rw [hctx]
  constructor
  · unfold createRawField
    dsimp only
    rw [hset]
  · unfold createDerivedField
    dsimp only
    rw [hset]

/-- C7 witness: at the initial world (no scope ever opened), both
constructions fail with `NoTableContextSetException` and change nothing. -/
theorem C7_no_scope_witness :
    createRawField initialWorld "f" none
      = (.error (.noTableContextSet "f"), initialWorld) ∧
    createDerivedField initialWorld "f" "1" none
      = (.error (.noTableContextSet "f"), initialWorld) :=
  C7_no_scope initialWorld "f" "1" none none (by rfl)

/-! ### C5: unknown alias in an expression -/

/-- C5 (counterexample): creating a derived field whose expression references
the unregistered alias `x` (with `t2`'s scope open) fails with Python's
builtin `KeyError` — the raw `kwargs[key]` lookup in `Formatter.get_value` —
and not with the typed `UnregisteredSourceException`, which no code path of
`get_fields_from_expr` raises. -/
theorem C5_counterexample :
    (createDerivedField scenarioC2 "f2" "abs(\x7bx.foo\x7d)" none).1
      = .error (.keyError "x") ∧
    isUnregisteredSource (createDerivedField scenarioC2 "f2" "abs(\x7bx.foo\x7d)" none).1
      = false :=
  ⟨rfl, rfl⟩

/-- C5 (amended): resolving an expression whose placeholder references an
alias `x` absent from the supplied sources mapping fails with Python's
untyped `KeyError` naming the offending alias; the typed
`UnregisteredSourceException` (which also carries the alias) is raised only
by `DerivedTable.get_source`, which the expression resolver never calls. -/
theorem C5_unknown_alias (w : World) (ctx : List (String × Nat))
    (hx : ctx.lookup "x" = none) :
    get_fields_from_expr w "abs(\x7bx.foo\x7d)" ctx = .error (.keyError "x") ∧
    (∀ tid t srcs fe gb key, w.getTable tid = some t → t.kind = .derived srcs fe gb →
      srcs.lookup key = none →
      get_source w tid key = .error (.unregisteredSource t.pname key)) := by
  constructor
  · have hget : getFieldPy w ctx "x.foo" = .error (.keyError "x") := by
      unfold getFieldPy
      have hs : splitFieldName "x.foo" = ("x", ["foo"]) := rfl
      rw [hs]
      dsimp only
      unfold getValue
      rw [hx]
    have hp : parsePlaceholders ("abs(\x7bx.foo\x7d)".data) = ["x.foo"] := rfl
    unfold get_fields_from_expr
    rw [hp]
    simp [List.foldlM, hget]
  · intro tid t srcs fe gb key hg hk hlook
    unfold get_source
    rw [hg]
    dsimp only
    rw [hk]
    dsimp only
    rw [hlook]

/-- C5 witness: with the mapping `[("t1", 0)]` of the resolution scenario the
resolver raises `KeyError("x")`, while `get_source` on table `t2` raises the
typed exception for the same missing alias. -/
theorem C5_unknown_alias_witness :
    get_fields_from_expr scenarioC2 "abs(\x7bx.foo\x7d)" [("t1", 0)]
      = .error (.keyError "x") ∧
    get_source scenarioC2 1 "x" = .error (.unregisteredSource "t2" "x") := by
  have h := C5_unknown_alias scenarioC2 [("t1", 0)] (by rfl)
  exact ⟨h.1,
    h.2 1 ⟨"s", "t2", "t2", "t2", [("income_abs", 1)], .derived [("t1", 0)] "\x7bt1\x7d" []⟩
      [("t1", 0)] "\x7bt1\x7d" [] "x" (by rfl) rfl (by rfl)⟩

/-! ### C8: duplicate source aliases -/

/-- C8 (counterexample): constructing a derived table from two sources that
share the alias `a` does not fail — no `DuplicateAlias` error exists anywhere
in the code — and the resulting alias mapping silently keeps only the later
source under that alias. -/
theorem C8_counterexample :
    process_sources scenarioC8 [0, 1] = [("a", 1)] ∧
    (createDerivedTable scenarioC8 "s" "d" [0, 1] "\x7ba\x7d" none none).1 = 2 ∧
    (createDerivedTable scenarioC8 "s" "d" [0, 1] "\x7ba\x7d" none none).2.getTable 2
      = some ⟨"s", "d", "d", "d", [], .derived [("a", 1)] "\x7ba\x7d" []⟩ :=
  ⟨rfl, rfl, rfl⟩

theorem mem_dictInsert {d : List (String × Nat)} {k : String} {v : Nat} {p : String × Nat}
    (hp : p ∈ dictInsert d k v) : p ∈ d ∨ p = (k, v) := by
  unfold dictInsert at hp
  split at hp
  · rcases List.mem_map.mp hp with ⟨q, hq, hqe⟩
    by_cases h : q.1 = k
    · rw [if_pos h] at hqe
      exact Or.inr hqe.symm
    · rw [if_neg h] at hqe
      exact Or.inl (hqe ▸ hq)
  · rcases List.mem_append.mp hp with h | h
    · exact Or.inl h
    · exact Or.inr (by simpa using h)

theorem process_sources_keys (w : World) :
    ∀ (ts : List Nat) (d : List (String × Nat)) (p : String × Nat),
      p ∈ ts.foldl (fun d tid => dictInsert d (tableAlias w tid) tid) d →
      p ∈ d ∨ ∃ tid ∈ ts, p = (tableAlias w tid, tid) := by
  intro ts
  induction ts with
  | nil => exact fun d p hp => Or.inl hp
  | cons t ts ih =>
    intro d p hp
    rw [List.foldl_cons] at hp
    rcases ih _ p hp with hd | ⟨tid, htid, hpe⟩
    · rcases mem_dictInsert hd with h | h
      · exact Or.inl h
      · exact Or.inr ⟨t, List.mem_cons_self t ts, h⟩
    · exact Or.inr ⟨tid, List.mem_cons_of_mem t htid, hpe⟩

/-- C8 (amended): `_process_sources` builds an alias → table mapping keyed by
each source's own alias; when two sources share an alias no error is raised —
the dict comprehension silently lets the later source overwrite the earlier
one. -/
theorem C8_alias_mapping (w : World) (t1 t2 : Nat) (a : String)
    (h1 : tableAlias w t1 = a) (h2 : tableAlias w t2 = a) :
    process_sources w [t1, t2] = [(a, t2)] ∧
    (∀ ts p, p ∈ process_sources w ts → ∃ tid ∈ ts, p = (tableAlias w tid, tid)) := by
  constructor
  · unfold process_sources
    simp only [List.foldl_cons, List.foldl_nil]
    rw [h1, h2]
    unfold dictInsert
    simp [List.lookup]
  · intro ts p hp
    rcases process_sources_keys w ts [] p hp with h | h
    · exact absurd h (List.not_mem_nil p)
    · exact h

/-- C8 witness: on the two concrete tables sharing alias `a`, the mapping is
`[("a", 1)]` (the later table) and every entry is keyed by its table's own
alias. -/
theorem C8_alias_mapping_witness :
    process_sources scenarioC8 [0, 1] = [("a", 1)] ∧
    (∀ p ∈ process_sources scenarioC8 [0, 1],
      ∃ tid ∈ [0, 1], p = (tableAlias scenarioC8 tid, tid)) := by
  have h := C8_alias_mapping scenarioC8 0 1 "a" (by rfl) (by rfl)
  exact ⟨h.1, fun p hp => h.2 [0, 1] p hp⟩

/-! ### C9 and C10: derived-field creation order -/

theorem getTable_lt {w : World} {tid : Nat} {t : TableData}
    (ht : w.getTable tid = some t) : tid < w.tables.length := by
  rw [World.getTable] at ht
  by_contra hge
  rw [List.getElem?_eq_none (by omega)] at ht
  exact Option.noConfusion ht

/-- Registration of a fresh physical name: `set_table` succeeds, returning
the context table and the world with the name appended to its field dict. -/
theorem setTable_fresh (w : World) (tid : Nat) (rest : List Nat) (t : TableData)
    (pname : String) (fid : Nat)
    (hctx : w.context = tid :: rest) (ht : w.getTable tid = some t)
    (hfree : t.fieldsMap.lookup pname = none) :
    setTable w fid pname
      = (.ok tid,
         { w with tables := w.tables.set tid ({ t with fieldsMap := t.fieldsMap ++ [(pname, fid)] }) }) := by
  have hadd : addField w tid fid pname
      = (.ok (),
         { w with tables := w.tables.set tid ({ t with fieldsMap := t.fieldsMap ++ [(pname, fid)] }) }) := by
    unfold addField
    rw [ht]
    simp [hfree]
  unfold setTable
  rw [hctx]
  dsimp only
  rw [hadd]
  simp [hctx]

/-- Unfolding `DerivedField` creation for a fresh name under an open scope:
the field is registered first, then sources are resolved; failure keeps the
registered world. -/
theorem createDerivedField_eq (w : World) (tid : Nat) (rest : List Nat) (t : TableData)
    (pname expr : String) (lname : Option String)
    (hctx : w.context = tid :: rest) (ht : w.getTable tid = some t)
    (hfree : t.fieldsMap.lookup pname = none) :
    createDerivedField w pname expr lname
      = match resolveSources (registeredWorld w tid t pname expr lname) tid expr with
        | .error e => (.error e, registeredWorld w tid t pname expr lname)
        | .ok s =>
          (.ok w.fields.length,
           { registeredWorld w tid t pname expr lname with
               fields := (registeredWorld w tid t pname expr lname).fields.set w.fields.length
                 ⟨pname, lname.getD pname, tid, .derived expr (some s)⟩ }) := by
  unfold createDerivedField
  dsimp only
  rw [setTable_fresh w tid rest t pname w.fields.length hctx ht hfree]
  rfl

/-- C9: when derived-field creation fails during placeholder resolution (the
scope is open on `tid` and `pname` is fresh, so registration itself
succeeded), the owning table has already been mutated: the failed field is
found by `__getitem__` under its physical name, and a later creation of any
field with the same physical name on that table fails with
`DuplicatedFieldException`. -/
theorem C9_registered_despite_failure (w : World) (pname expr expr2 : String)
    (lname lname2 : Option String) (tid : Nat) (rest : List Nat) (t : TableData)
    (e : LoomError)
    (hctx : w.context = tid :: rest)
    (ht : w.getTable tid = some t)
    (hfree : t.fieldsMap.lookup pname = none)
    (hfail : (createDerivedField w pname expr lname).1 = .error e) :
    tableGetItem (createDerivedField w pname expr lname).2 tid pname
      = .ok w.fields.length ∧
    (createDerivedField (createDerivedField w pname expr lname).2 pname expr2 lname2).1
      = .error (.duplicatedField t.pname pname) := by
  have hlt : tid < w.tables.length := getTable_lt ht
  have heq := createDerivedField_eq w tid rest t pname expr lname hctx ht hfree
  have hg1 : (registeredWorld w tid t pname expr lname).getTable tid
      = some { t with fieldsMap := t.fieldsMap ++ [(pname, w.fields.length)] } := by
    rw [World.getTable]
    exact List.getElem?_set_self hlt
  have hlook : ({ t with fieldsMap := t.fieldsMap ++ [(pname, w.fields.length)]
      } : TableData).fieldsMap.lookup pname = some w.fields.length := by
    dsimp only
    rw [List.lookup_append, hfree]
    simp [List.lookup]
  cases hres : resolveSources (registeredWorld w tid t pname expr lname) tid expr with
  | ok s =>
    rw [hres] at heq
    rw [heq] at hfail
    exact Except.noConfusion hfail
  | error e2 =>
    rw [hres] at heq
    rw [heq]
    dsimp only
    constructor
    · unfold tableGetItem
      rw [hg1]
      dsimp only
      rw [hlook]
    · have hctx1 : (registeredWorld w tid t pname expr lname).context = tid :: rest := hctx
      have hadd2 : addField (registeredWorld w tid t pname expr lname) tid
          (registeredWorld w tid t pname expr lname).fields.length pname
          = (.error (.duplicatedField t.pname pname),
             registeredWorld w tid t pname expr lname) := by
        unfold addField
        rw [hg1]
        simp [hlook]
      have hset2 : setTable (registeredWorld w tid t pname expr lname)
          (registeredWorld w tid t pname expr lname).fields.length pname
          = (.error (.duplicatedField t.pname pname),
             registeredWorld w tid t pname expr lname) := by
        unfold setTable
        rw [hctx1]
        dsimp only
        rw [hadd2]
      unfold createDerivedField
      dsimp only
      rw [hset2]

/-- C9 witness: creating `bad` with an unresolvable expression on the open
`t2` scope of the resolution scenario fails, yet `bad` is registered as field
id 2 and a second `bad` fails with `DuplicatedFieldException`. -/
theorem C9_registered_despite_failure_witness :
    tableGetItem (createDerivedField scenarioC2 "bad" "\x7bx.foo\x7d" none).2 1 "bad"
      = .ok 2 ∧
    (createDerivedField (createDerivedField scenarioC2 "bad" "\x7bx.foo\x7d" none).2
        "bad" "1" none).1
      = .error (.duplicatedField "t2" "bad") :=
  C9_registered_despite_failure scenarioC2 "bad" "\x7bx.foo\x7d" "1" none none 1 []
    ⟨"s", "t2", "t2", "t2", [("income_abs", 1)], .derived [("t1", 0)] "\x7bt1\x7d" []⟩
    (.keyError "x") (by rfl) (by rfl) (by rfl) (by rfl)

/-- C10: a derived field whose expression contains no placeholders is created
successfully on an open derived-table scope (fresh name assumed): its
direct-source set is empty and `get_lineage()` returns the empty set, not the
singleton of the field itself. -/
theorem C10_no_placeholders (w : World) (pname expr : String) (lname : Option String)
    (tid : Nat) (rest : List Nat) (t : TableData)
    (srcs : List (String × Nat)) (fe : String) (gb : List Nat)
    (hctx : w.context = tid :: rest)
    (ht : w.getTable tid = some t)
    (hkind : t.kind = .derived srcs fe gb)
    (hfree : t.fieldsMap.lookup pname = none)
    (hnop : parsePlaceholders expr.data = []) :
    (createDerivedField w pname expr lname).1 = .ok w.fields.length ∧
    fieldGetSources (createDerivedField w pname expr lname).2 w.fields.length = .ok ∅ ∧
    get_lineage (createDerivedField w pname expr lname).2 w.fields.length = ∅ := by
  have hlt : tid < w.tables.length := getTable_lt ht
  have heq := createDerivedField_eq w tid rest t pname expr lname hctx ht hfree
  have hg1 : (registeredWorld w tid t pname expr lname).getTable tid
      = some { t with fieldsMap := t.fieldsMap ++ [(pname, w.fields.length)] } := by
    rw [World.getTable]
    exact List.getElem?_set_self hlt
  have hresolve : resolveSources (registeredWorld w tid t pname expr lname) tid expr
      = .ok ∅ := by
    unfold resolveSources
    have hts : tableSources (registeredWorld w tid t pname expr lname) tid = .ok srcs := by
      unfold tableSources
      rw [hg1]
      dsimp only
      rw [hkind]
    rw [hts]
    unfold get_fields_from_expr
    rw [hnop]
    rfl
  rw [hresolve] at heq
  rw [heq]
  dsimp only
  have hgf : (((registeredWorld w tid t pname expr lname).fields.set w.fields.length
      ⟨pname, lname.getD pname, tid, .derived expr (some ∅)⟩))[w.fields.length]?
      = some ⟨pname, lname.getD pname, tid, .derived expr (some ∅)⟩ := by
    apply List.getElem?_set_self
    unfold registeredWorld
    simp
  refine ⟨rfl, ?_, ?_⟩
  · unfold fieldGetSources
    rw [World.getField]
    dsimp only
    rw [hgf]
  · unfold get_lineage
    simp only [getLineageAux]
    rw [World.getField]
    dsimp only
    rw [hgf]
    simp

/-- C10 witness: the constant expression `"42"` creates field id 2 on the open
`t2` scope with empty sources and empty lineage. -/
theorem C10_no_placeholders_witness :
    (createDerivedField scenarioC2 "const1" "42" none).1 = .ok 2 ∧
    fieldGetSources (createDerivedField scenarioC2 "const1" "42" none).2 2 = .ok ∅ ∧
    get_lineage (createDerivedField scenarioC2 "const1" "42" none).2 2 = ∅ :=
  C10_no_placeholders scenarioC2 "const1" "42" none 1 []
    ⟨"s", "t2", "t2", "t2", [("income_abs", 1)], .derived [("t1", 0)] "\x7bt1\x7d" []⟩
    [("t1", 0)] "\x7bt1\x7d" [] (by rfl) (by rfl) rfl (by rfl) (by rfl)

end Loom
